import Mathlib

/-!
Shallow embedding of `feature_engine/selection/shuffle_features.py`.

The module defines one class, `ShuffleFeatures`, a fit/transform feature
selector: `fit` trains a model (the caller-supplied estimator, or a default
random-forest regressor/classifier depending on `regression`), records a
baseline performance (hardcoded `1` for a supplied estimator, mean squared
error for regression, ROC-AUC for classification), then for each feature
shuffles that column on a copy of the dataframe, recomputes the metric and
stores `drift = baseline - shuffled` in `features_performance_drifts_`.
`transform` drops the columns whose drift is `>= threshold` (regression) or
`<= threshold` (classification).

Cell values are modelled as rationals.  Dataframes are association lists from
column names to value columns, with a no-duplicate-names invariant.  Pandas
frames have reference semantics (`.copy()` is explicit in the source), so the
embedding threads an explicit heap of frames; `fit` and `transform` receive a
heap and a reference-valued python object and return the final heap, which
lets frame (non-mutation) properties be stated.  Model training, prediction
and the random permutation used by `sample(frac=1)` are supplied as an
environment of pure functions (`MLEnv`): a fixed random seed corresponds to a
fixed `shuffle` field.
-/

namespace FeatureEngine

/-- Cell values of the dataframe (python floats are modelled as rationals). -/
abbrev Value := Rat

/-- A python runtime value, as far as the constructor validation needs to
distinguish: `isinstance(x, bool)` holds exactly for the `bool` variant. -/
inductive PyVal where
  | bool (b : Bool)
  | int (n : Int)
  | float (q : Rat)
  | str (s : String)
  | none
deriving DecidableEq

/-- `isinstance(v, bool)`. -/
def PyVal.isBool : PyVal → Bool
  | .bool _ => true
  | _ => false

/-- A pandas dataframe: ordered named columns with no duplicate names. -/
structure DataFrame where
  data : List (String × List Value)
  nodup : (data.map Prod.fst).Nodup

instance : Inhabited DataFrame := ⟨⟨[], List.nodup_nil⟩⟩

/-- The column names, in order. -/
def DataFrame.cols (X : DataFrame) : List String := X.data.map Prod.fst

/-- Read a column by name (`X[c]`); empty for a missing name. -/
def DataFrame.getCol (X : DataFrame) (c : String) : List Value :=
  match X.data.find? (fun p => p.1 = c) with
  | some p => p.2
  | Option.none => []

/-- Column assignment `X[c] = v`: replaces the column in place when the name
exists, appends a new column otherwise (pandas semantics). -/
def DataFrame.setCol (X : DataFrame) (c : String) (v : List Value) : DataFrame :=
  if h : X.cols.contains c then
    ⟨X.data.map (fun p => if p.1 = c then (c, v) else p), by
      have hmap : (X.data.map (fun p => if p.1 = c then (c, v) else p)).map Prod.fst
          = X.data.map Prod.fst := by
        rw [List.map_map]
        apply List.map_congr_left
        intro p _
        by_cases hp : p.1 = c <;> simp [hp]
      rw [hmap]; exact X.nodup⟩
  else
    ⟨X.data ++ [(c, v)], by
      rw [List.map_append]
      simp only [List.map_cons, List.map_nil]
      rw [List.nodup_append]
      refine ⟨X.nodup, List.nodup_singleton c, ?_⟩
      intro a ha hb
      simp only [List.mem_singleton] at hb
      have hmem : a ∈ X.cols := ha
      rw [hb] at hmem
      exact h (List.elem_iff.mpr hmem)⟩

/-- `X.drop(columns=cs)`: raises a `KeyError` when a label is absent, else
returns a new frame with the named columns removed, the rest in order. -/
def DataFrame.dropColumns (X : DataFrame) (cs : List String) :
    Except String DataFrame :=
  if cs.all (fun c => X.cols.contains c) then
    .ok ⟨X.data.filter (fun p => !cs.contains p.1),
      (List.filter_sublist X.data).map Prod.fst |>.nodup X.nodup⟩
  else
    .error ("KeyError: labels not found in axis")

/-- The heap of live dataframes; a frame reference is an index into it. -/
structure Heap where
  frames : List DataFrame

/-- Dereference a frame (the default frame for a dangling reference). -/
def Heap.get (h : Heap) (r : Nat) : DataFrame := h.frames.getD r default

/-- Allocate a fresh frame, returning the new heap and the new reference. -/
def Heap.alloc (h : Heap) (d : DataFrame) : Heap × Nat :=
  (⟨h.frames ++ [d]⟩, h.frames.length)

/-- Overwrite the frame at an existing reference (in-place mutation). -/
def Heap.set (h : Heap) (r : Nat) (d : DataFrame) : Heap :=
  ⟨h.frames.set r d⟩

/-- A python object passed where a dataframe is expected: either a reference
to a frame on the heap, or some non-dataframe object. -/
inductive PyObj where
  | df (r : Nat)
  | other

/-- A trained model: `predict` and (for classifiers) the positive-class
column of `predict_proba`. -/
structure Model where
  predict : DataFrame → List Value
  predictProba : DataFrame → List Value

/-- The external machine-learning environment: training of the two default
ensemble models, and the random permutation drawn by the `i`-th call of
`.sample(frac=1).reset_index(drop=True)` during one `fit`.  A fixed random
seed fixes `shuffle`. -/
structure MLEnv where
  trainRegressor : DataFrame → List Value → Model
  trainClassifier : DataFrame → List Value → Model
  shuffle : Nat → List Value → List Value

/-- `sklearn.metrics.mean_squared_error`. -/
def mean_squared_error (ytrue ypred : List Value) : Value :=
  (((ytrue.zip ypred).map (fun p => (p.1 - p.2) ^ 2)).sum) / ytrue.length

/-- `sklearn.metrics.roc_auc_score` on binary labels (positive label `1`),
in its Mann-Whitney formulation: the fraction of (positive, negative) pairs
ranked correctly, ties counting one half. -/
def roc_auc_score (ytrue yscore : List Value) : Value :=
  let pairs := ytrue.zip yscore
  let pos := (pairs.filter (fun p => p.1 == 1)).map Prod.snd
  let neg := (pairs.filter (fun p => p.1 != 1)).map Prod.snd
  let wins := (pos.map (fun s =>
    (neg.map (fun t =>
      if t < s then (1 : Value) else if s = t then 1 / 2 else 0)).sum)).sum
  wins / ((pos.length : Value) * (neg.length : Value))

/-- Modelled from the spec: `feature_engine.variable_manipulation
._define_variables` is not under `src/`.  Per the spec it normalises the
`features_to_shuffle` argument: `None` stays `None` (meaning all variables
are shuffled), a list of names is kept as given. -/
def _define_variables (v : Option (List String)) : Option (List String) := v

/-- Modelled from the spec: `feature_engine.variable_manipulation
._find_all_variables` is not under `src/`.  Per the spec it resolves the
requested features against the dataframe: `None` resolves to all columns,
and a given list fails when any named feature is absent from the columns. -/
def _find_all_variables (X : DataFrame) (vars : Option (List String)) :
    Except String (List String) :=
  match vars with
  | Option.none => .ok X.cols
  | some l =>
    if l.all (fun c => X.cols.contains c) then .ok l
    else .error ("Some of the variables are not present in the dataframe")

/-- Modelled from the spec: `feature_engine.dataframe_checks._is_dataframe`
is not under `src/`.  Per the spec it validates that the input is a pandas
dataframe, failing with a type error otherwise, and returns a (fresh) copy
of it, so the caller's frame is never written through. -/
def _is_dataframe (h : Heap) (x : PyObj) : Except String (Heap × Nat) :=
  match x with
  | .df r => .ok (h.alloc (h.get r))
  | .other => .error ("The data set should be a pandas dataframe")

/-- The state of a `ShuffleFeatures` object.  `cv` is stored after the
constructor validated it to be a bool; `features_performance_drifts_` is the
fitted attribute, absent (`none`) until `fit` completes. -/
structure ShuffleFeatures where
  features_to_shuffle : Option (List String)
  estimator : Option (DataFrame → List Value → Model)
  scoring : String
  threshold : Value
  regression : Bool
  cv : Bool
  features_performance_drifts_ : Option (List (String × Value))

/-- `ShuffleFeatures.__init__`: validates that `cv` and then `regression`
are booleans (`ValueError` otherwise) and stores the configuration.  The
python default for `cv` is the integer `3`. -/
def ShuffleFeatures.init (regression cv : PyVal) (threshold : Value)
    (features_to_shuffle : Option (List String))
    (estimator : Option (DataFrame → List Value → Model)) (scoring : String) :
    Except String ShuffleFeatures :=
  match cv with
  | .bool cb =>
    match regression with
    | .bool rb =>
      .ok { features_to_shuffle := _define_variables features_to_shuffle
            estimator := estimator
            scoring := scoring
            threshold := threshold
            regression := rb
            cv := cb
            features_performance_drifts_ := Option.none }
    | _ => .error ("regression can only take True or False")
  | _ => .error ("cv can only take True or False")

/-- `ShuffleFeatures.init` with `cv` left at its python default `3`. -/
def ShuffleFeatures.initDefaultCv (regression : PyVal) (threshold : Value)
    (features_to_shuffle : Option (List String))
    (estimator : Option (DataFrame → List Value → Model)) (scoring : String) :
    Except String ShuffleFeatures :=
  ShuffleFeatures.init regression (.int 3) threshold features_to_shuffle
    estimator scoring

/-- Python `dict` assignment `d[k] = v`: overwrites in place when the key is
present, appends otherwise. -/
def dictInsert (d : List (String × Value)) (k : String) (v : Value) :
    List (String × Value) :=
  if d.any (fun p => p.1 == k) then
    d.map (fun p => if p.1 = k then (k, v) else p)
  else
    d ++ [(k, v)]

/-- The dataframe on which the shuffled performance of feature `f` is
recomputed: a copy of `X` whose column `f` holds `perm` applied to the
column's own values (`X_shuffled[feature] =
X_shuffled[feature].sample(frac=1).reset_index(drop=True)`). -/
def shuffledFrame (X : DataFrame) (f : String) (perm : List Value → List Value) :
    DataFrame :=
  X.setCol f (perm (X.getCol f))

/-- The loop body of `fit` over the resolved features: for the `i`-th feature
allocate `X_shuffled = X.copy()`, overwrite its feature column with the `i`-th
random permutation, recompute the mode's metric with the already-trained
model, and record `drift = model_performance - shuffled_model_performance`
in the drift dict. -/
def fitLoop (shuffle : Nat → List Value → List Value) (model : Model)
    (regression : Bool) (y : List Value) (model_performance : Value)
    (xr : Nat) : List String → Nat → Heap → List (String × Value) →
    Heap × List (String × Value)
  | [], _, h, acc => (h, acc)
  | f :: fs, i, h, acc =>
    let X := h.get xr
    let al := h.alloc X
    let h1 := al.1
    let sr := al.2
    let h2 := h1.set sr (shuffledFrame (h1.get sr) f (shuffle i))
    let X_shuffled := h2.get sr
    let shuffled_model_performance :=
      if regression then mean_squared_error y (model.predict X_shuffled)
      else roc_auc_score y (model.predictProba X_shuffled)
    let drift := model_performance - shuffled_model_performance
    fitLoop shuffle model regression y model_performance xr fs (i + 1) h2
      (dictInsert acc f drift)

/-- `ShuffleFeatures.fit(X, y)`: validate and copy the dataframe, resolve
`features_to_shuffle`, train the model (supplied estimator with baseline
performance hardcoded to `1`, else the default regressor with an MSE
baseline, else the default classifier with a ROC-AUC baseline over the
positive-class probabilities), then run the shuffle loop and store the drift
dict in `features_performance_drifts_`. -/
def ShuffleFeatures.fit (env : MLEnv) (s : ShuffleFeatures) (h : Heap)
    (xobj : PyObj) (y : List Value) :
    Except String (ShuffleFeatures × Heap) :=
  match _is_dataframe h xobj with
  | .error e => .error e
  | .ok hx =>
    let h1 := hx.1
    let xr := hx.2
    let X := h1.get xr
    match _find_all_variables X s.features_to_shuffle with
    | .error e => .error e
    | .ok feats =>
      let mp : Model × Value :=
        match s.estimator with
        | some est =>
          let m := est X y
          let _y_pred := m.predict X
          (m, (1 : Value))
        | Option.none =>
          if s.regression then
            let m := env.trainRegressor X y
            (m, mean_squared_error y (m.predict X))
          else
            let m := env.trainClassifier X y
            (m, roc_auc_score y (m.predictProba X))
      let res :=
        fitLoop env.shuffle mp.1 s.regression y mp.2 xr feats 0 h1 []
      .ok ({ s with features_to_shuffle := some feats
                    features_performance_drifts_ := some res.2 }, res.1)

/-- The `columns_to_drop` list computed by `transform`: the recorded features
whose drift is `>= threshold` in regression mode, `<= threshold` in
classification mode (both comparisons inclusive in the source). -/
def columnsToDrop (s : ShuffleFeatures) (drifts : List (String × Value)) :
    List String :=
  if s.regression then
    (drifts.filter (fun p => s.threshold ≤ p.2)).map Prod.fst
  else
    (drifts.filter (fun p => p.2 ≤ s.threshold)).map Prod.fst

/-- `ShuffleFeatures.transform(X)`: `check_is_fitted` (fail when
`features_performance_drifts_` is absent), validate and copy the dataframe,
compute `columns_to_drop` from the drift dict, and return `X` with those
columns dropped (the drop allocates a new frame). -/
def ShuffleFeatures.transform (s : ShuffleFeatures) (h : Heap) (xobj : PyObj) :
    Except String (DataFrame × Heap) :=
  match s.features_performance_drifts_ with
  | Option.none =>
    .error ("This ShuffleFeatures instance is not fitted yet")
  | some drifts =>
    match _is_dataframe h xobj with
    | .error e => .error e
    | .ok hx =>
      let h1 := hx.1
      let xr := hx.2
      let X := h1.get xr
      match X.dropColumns (columnsToDrop s drifts) with
      | .error e => .error e
      | .ok Xt =>
        .ok (Xt, (h1.alloc Xt).1)

/-- The model trained by `fit` (read off the three branches of the source). -/
def trainedModel (env : MLEnv) (s : ShuffleFeatures) (X : DataFrame)
    (y : List Value) : Model :=
  match s.estimator with
  | some est => est X y
  | Option.none =>
    if s.regression then env.trainRegressor X y else env.trainClassifier X y

/-- The baseline `model_performance` recorded by `fit`: the constant `1`
for a supplied estimator, MSE of the default regressor's predictions in
regression mode, ROC-AUC of the default classifier's positive-class
probabilities otherwise. -/
def baselinePerf (env : MLEnv) (s : ShuffleFeatures) (X : DataFrame)
    (y : List Value) : Value :=
  match s.estimator with
  | some _ => 1
  | Option.none =>
    if s.regression then
      mean_squared_error y ((trainedModel env s X y).predict X)
    else
      roc_auc_score y ((trainedModel env s X y).predictProba X)

/-- The shuffled performance of feature `f` under the `i`-th random
permutation: the mode's metric recomputed on `shuffledFrame X f`. -/
def shuffledPerf (env : MLEnv) (s : ShuffleFeatures) (X : DataFrame)
    (y : List Value) (i : Nat) (f : String) : Value :=
  if s.regression then
    mean_squared_error y
      ((trainedModel env s X y).predict (shuffledFrame X f (env.shuffle i)))
  else
    roc_auc_score y
      ((trainedModel env s X y).predictProba (shuffledFrame X f (env.shuffle i)))

/-- The drift recorded at loop index `j` for feature `f`, as a pure function
of the loop's fixed inputs. -/
def loopDrift (sh : Nat → List Value → List Value) (m : Model) (reg : Bool)
    (y : List Value) (perf : Value) (X : DataFrame) (j : Nat) (f : String) :
    Value :=
  perf - (if reg then mean_squared_error y (m.predict (shuffledFrame X f (sh j)))
          else roc_auc_score y (m.predictProba (shuffledFrame X f (sh j))))

/-- The pure (heap-free) reflection of the drift dict built by `fitLoop`,
with `d i f` the drift recorded for feature `f` at loop index `i`. -/
def pureLoop (d : Nat → String → Value) :
    List String → Nat → List (String × Value) → List (String × Value)
  | [], _, acc => acc
  | f :: fs, i, acc => pureLoop d fs (i + 1) (dictInsert acc f (d i f))

/-- Indexed map used to state the drift dict in closed form. -/
def mapWithIndexFrom (d : Nat → String → Value) :
    Nat → List String → List (String × Value)
  | _, [] => []
  | i, f :: fs => (f, d i f) :: mapWithIndexFrom d (i + 1) fs

instance : DecidableEq DataFrame := fun a b =>
  if h : a.data = b.data then
    isTrue (by cases a; cases b; simpa using h)
  else
    isFalse (fun he => h (by rw [he]))

instance : DecidableEq Heap := fun a b =>
  if h : a.frames = b.frames then
    isTrue (by cases a; cases b; simpa using h)
  else
    isFalse (fun he => h (by rw [he]))

/-! Concrete instances used by the witnesses. -/

/-- Column name used by the concrete witnesses. -/
def wA : String := "a"

/-- Column name used by the concrete witnesses. -/
def wB : String := "b"

/-- A concrete two-column dataframe. -/
def wDF : DataFrame := ⟨[(wA, [1, 0]), (wB, [0, 1])], by decide⟩

/-- A concrete model that predicts column `a` verbatim. -/
def wM : Model := ⟨fun X => X.getCol wA, fun X => X.getCol wA⟩

/-- A concrete deterministic environment whose permutation reverses. -/
def wEnv : MLEnv := ⟨fun _ _ => wM, fun _ _ => wM, fun _ l => l.reverse⟩

/-- A concrete heap holding the caller's frame at reference 0. -/
def wHeap : Heap := ⟨[wDF]⟩

/-- A concrete freshly-constructed regression selector. -/
def wSel : ShuffleFeatures :=
  ⟨Option.none, Option.none, "neg_mean_squared_error", 0, true, false,
    Option.none⟩

/-- A concrete target vector. -/
def wY : List Value := [1, 0]

/-- The result of fitting `wSel` on `wDF` (fallback never taken). -/
def wFitPair : ShuffleFeatures × Heap :=
  match ShuffleFeatures.fit wEnv wSel wHeap (.df 0) wY with
  | .ok p => p
  | .error _ => (wSel, wHeap)

/-- The drift dict recorded by the witness fit. -/
def wDs : List (String × Value) := [(wA, -1), (wB, 0)]

/-- The drift dict recorded by the witness fit, extracted from the fitted
selector. -/
def wDsX : List (String × Value) :=
  match wFitPair.1.features_performance_drifts_ with
  | some d => d
  | Option.none => []

/-- A concrete already-fitted selector with a literal drift dict. -/
def wSelD : ShuffleFeatures :=
  ⟨some [wA, wB], Option.none, "neg_mean_squared_error", 0, true, false,
    some wDs⟩

/-- A concrete freshly-constructed selector with scoring string `x`. -/
def wSel0 : ShuffleFeatures :=
  ⟨Option.none, Option.none, "x", 0, true, false, Option.none⟩

/-- A concrete freshly-constructed selector differing from `wSel` only in
`scoring` and `cv`. -/
def wSel9 : ShuffleFeatures :=
  ⟨Option.none, Option.none, "r2", 0, true, true, Option.none⟩

/-- The head entry of the witness drift dict. -/
def wP : String × Value := wDsX.headD (wA, 0)

/-- The result of transforming `wDF` with the fitted witness selector
(fallback never taken). -/
def wTrPairD : DataFrame × Heap :=
  match ShuffleFeatures.transform wSelD wHeap (.df 0) with
  | .ok p => p
  | .error _ => (default, wHeap)

/-! Heap lemmas. -/

theorem Heap.get_mk_append_len (fr : List DataFrame) (d : DataFrame) :
    Heap.get ⟨fr ++ [d]⟩ fr.length = d := by
  simp [Heap.get, List.getD_eq_getElem?_getD]

theorem Heap.get_mk_append_lt (fr : List DataFrame) (d : DataFrame) (r : Nat)
    (hr : r < fr.length) : Heap.get ⟨fr ++ [d]⟩ r = Heap.get ⟨fr⟩ r := by
  simp only [Heap.get]
  exact List.getD_append _ _ _ _ hr

theorem Heap.get_alloc_self (h : Heap) (d : DataFrame) :
    (h.alloc d).1.get (h.alloc d).2 = d :=
  Heap.get_mk_append_len h.frames d

theorem Heap.get_alloc_lt (h : Heap) (d : DataFrame) (r : Nat)
    (hr : r < h.frames.length) : (h.alloc d).1.get r = h.get r :=
  Heap.get_mk_append_lt h.frames d r hr

theorem Heap.get_set_ne (h : Heap) (r' : Nat) (d : DataFrame) (r : Nat)
    (hne : r' ≠ r) : (h.set r' d).get r = h.get r := by
  simp [Heap.set, Heap.get, List.getD_eq_getElem?_getD,
    List.getElem?_set_ne hne]

theorem Heap.get_set_self (h : Heap) (r : Nat) (d : DataFrame)
    (hr : r < h.frames.length) : (h.set r d).get r = d := by
  simp [Heap.set, Heap.get, List.getD_eq_getElem?_getD,
    List.getElem?_set_self, hr]

theorem Heap.length_set (h : Heap) (r : Nat) (d : DataFrame) :
    (h.set r d).frames.length = h.frames.length := by
  simp [Heap.set]

/-! Dataframe column lemmas. -/

theorem find?_overwrite_self (c : String) (v : List Value) :
    ∀ l : List (String × List Value), c ∈ l.map Prod.fst →
      (l.map (fun p => if p.1 = c then (c, v) else p)).find?
        (fun p => p.1 = c) = some (c, v)
  | [], hc => by simp at hc
  | p :: t, hc => by
    by_cases hp : p.1 = c
    · simp only [List.map_cons, if_pos hp]
      exact List.find?_cons_of_pos _ (by simp)
    · have hc' : c ∈ t.map Prod.fst := by
        rcases (by simpa using hc : c = p.1 ∨ c ∈ t.map Prod.fst) with h | h
        · exact absurd h.symm hp
        · exact h
      simp only [List.map_cons, if_neg hp]
      rw [List.find?_cons_of_neg _ (by simp [hp])]
      exact find?_overwrite_self c v t hc'

theorem find?_overwrite_ne (c g : String) (v : List Value) (hg : g ≠ c) :
    ∀ l : List (String × List Value),
      (l.map (fun p => if p.1 = c then (c, v) else p)).find?
        (fun p => p.1 = g) = l.find? (fun p => p.1 = g)
  | [] => rfl
  | p :: t => by
    by_cases hp : p.1 = c
    · simp only [List.map_cons, if_pos hp]
      rw [List.find?_cons_of_neg _ (by simp [Ne.symm hg]),
        List.find?_cons_of_neg _ (by simp [hp, Ne.symm hg])]
      exact find?_overwrite_ne c g v hg t
    · simp only [List.map_cons, if_neg hp]
      by_cases hpg : p.1 = g
      · rw [List.find?_cons_of_pos _ (by simp [hpg]),
          List.find?_cons_of_pos _ (by simp [hpg])]
      · rw [List.find?_cons_of_neg _ (by simp [hpg]),
          List.find?_cons_of_neg _ (by simp [hpg])]
        exact find?_overwrite_ne c g v hg t

theorem map_fst_overwrite {β : Type} (l : List (String × β)) (k : String)
    (w : β) :
    (l.map (fun p => if p.1 = k then (k, w) else p)).map Prod.fst =
      l.map Prod.fst := by
  rw [List.map_map]
  apply List.map_congr_left
  intro p _
  by_cases hp : p.1 = k <;> simp [hp]

theorem DataFrame.contains_of_mem {X : DataFrame} {c : String}
    (hc : c ∈ X.cols) : X.cols.contains c = true :=
  List.elem_iff.mpr hc

theorem DataFrame.cols_setCol (X : DataFrame) (c : String) (v : List Value)
    (hc : c ∈ X.cols) : (X.setCol c v).cols = X.cols := by
  simp only [DataFrame.setCol, dif_pos (X.contains_of_mem hc)]
  exact map_fst_overwrite X.data c v

theorem DataFrame.getCol_setCol_self (X : DataFrame) (c : String)
    (v : List Value) (hc : c ∈ X.cols) : (X.setCol c v).getCol c = v := by
  simp only [DataFrame.setCol, dif_pos (X.contains_of_mem hc)]
  simp only [DataFrame.getCol, find?_overwrite_self c v X.data hc]

theorem DataFrame.getCol_setCol_ne (X : DataFrame) (c g : String)
    (v : List Value) (hg : g ≠ c) : (X.setCol c v).getCol g = X.getCol g := by
  unfold DataFrame.setCol
  by_cases hc : X.cols.contains c
  · simp only [dif_pos hc, DataFrame.getCol, find?_overwrite_ne c g v hg X.data]
  · simp only [dif_neg hc, DataFrame.getCol, List.find?_append]
    have hone : (([(c, v)] : List (String × List Value)).find?
        (fun p => p.1 = g)) = Option.none := by
      simp [Ne.symm hg]
    rw [hone]
    cases X.data.find? (fun p => p.1 = g) <;> simp

/-! Drift-dict lemmas. -/

theorem dictInsert_of_not_mem (d : List (String × Value)) (k : String)
    (v : Value) (hk : k ∉ d.map Prod.fst) : dictInsert d k v = d ++ [(k, v)] := by
  unfold dictInsert
  rw [if_neg]
  intro hany
  rcases List.any_eq_true.mp hany with ⟨p, hp, hpk⟩
  exact hk (List.mem_map.mpr ⟨p, hp, by simpa using hpk⟩)

theorem dictInsert_mem_keys (d : List (String × Value)) (k : String)
    (v : Value) (f : String) :
    f ∈ (dictInsert d k v).map Prod.fst ↔ f ∈ d.map Prod.fst ∨ f = k := by
  unfold dictInsert
  by_cases hm : d.any (fun p => p.1 == k)
  · rw [if_pos hm, map_fst_overwrite]
    have hk : k ∈ d.map Prod.fst := by
      rcases List.any_eq_true.mp hm with ⟨p, hp, hpk⟩
      exact List.mem_map.mpr ⟨p, hp, by simpa using hpk⟩
    constructor
    · exact Or.inl
    · rintro (h | rfl)
      · exact h
      · exact hk
  · rw [if_neg hm, List.map_append]
    simp

theorem dictInsert_mem_pairs (d : List (String × Value)) (k : String)
    (v : Value) (p : String × Value) (hp : p ∈ dictInsert d k v) :
    p ∈ d ∨ p = (k, v) := by
  unfold dictInsert at hp
  by_cases hm : d.any (fun q => q.1 == k)
  · rw [if_pos hm] at hp
    rcases List.mem_map.mp hp with ⟨q, hq, hqp⟩
    by_cases hqk : q.1 = k
    · right
      rw [if_pos hqk] at hqp
      exact hqp.symm
    · left
      rw [if_neg hqk] at hqp
      exact hqp ▸ hq
  · rw [if_neg hm] at hp
    rcases List.mem_append.mp hp with h | h
    · exact Or.inl h
    · right
      simpa using h

theorem pureLoop_mem_keys (d : Nat → String → Value) :
    ∀ (fs : List String) (i : Nat) (acc : List (String × Value)) (f : String),
      f ∈ (pureLoop d fs i acc).map Prod.fst ↔ f ∈ acc.map Prod.fst ∨ f ∈ fs
  | [], i, acc, f => by simp [pureLoop]
  | g :: fs, i, acc, f => by
    simp only [pureLoop]
    rw [pureLoop_mem_keys d fs (i + 1) (dictInsert acc g (d i g)) f,
      dictInsert_mem_keys]
    simp only [List.mem_cons]
    tauto

theorem pureLoop_mem_pairs (d : Nat → String → Value) :
    ∀ (fs : List String) (i : Nat) (acc : List (String × Value))
      (p : String × Value), p ∈ pureLoop d fs i acc →
        p ∈ acc ∨ ∃ j, p.2 = d j p.1
  | [], _, _, _, hp => Or.inl hp
  | g :: fs, i, acc, p, hp => by
    simp only [pureLoop] at hp
    rcases pureLoop_mem_pairs d fs (i + 1) _ p hp with h | h
    · rcases dictInsert_mem_pairs _ _ _ _ h with h2 | h2
      · exact Or.inl h2
      · exact Or.inr ⟨i, by rw [h2]⟩
    · exact Or.inr h

theorem pureLoop_eq_append (d : Nat → String → Value) :
    ∀ (fs : List String) (i : Nat) (acc : List (String × Value)),
      fs.Nodup → (∀ f ∈ fs, f ∉ acc.map Prod.fst) →
      pureLoop d fs i acc = acc ++ mapWithIndexFrom d i fs
  | [], i, acc, _, _ => by simp [pureLoop, mapWithIndexFrom]
  | g :: fs, i, acc, hnd, hdisj => by
    simp only [pureLoop, mapWithIndexFrom]
    rw [dictInsert_of_not_mem acc g (d i g) (hdisj g (List.mem_cons_self g fs))]
    rw [pureLoop_eq_append d fs (i + 1) _ hnd.of_cons ?hnotin]
    · rw [List.append_assoc]
      rfl
    case hnotin =>
      intro f hf
      rw [List.map_append]
      simp only [List.mem_append]
      rintro (h | h)
      · exact hdisj f (List.mem_cons_of_mem g hf) h
      · have hfg : f = g := by simpa using h
        exact (List.nodup_cons.mp hnd).1 (hfg ▸ hf)

theorem columnsToDrop_mem (s : ShuffleFeatures) (ds : List (String × Value))
    (f : String) :
    f ∈ columnsToDrop s ds ↔
      ∃ dr, (f, dr) ∈ ds ∧
        (if s.regression then s.threshold ≤ dr else dr ≤ s.threshold) := by
  unfold columnsToDrop
  cases hreg : s.regression
  · simp only [Bool.false_eq_true, if_false, List.mem_map, List.mem_filter]
    constructor
    · rintro ⟨p, ⟨hmem, hle⟩, rfl⟩
      exact ⟨p.2, hmem, by simpa using hle⟩
    · rintro ⟨dr, hmem, hle⟩
      exact ⟨(f, dr), ⟨hmem, by simpa using hle⟩, rfl⟩
  · simp only [if_true, List.mem_map, List.mem_filter]
    constructor
    · rintro ⟨p, ⟨hmem, hle⟩, rfl⟩
      exact ⟨p.2, hmem, by simpa using hle⟩
    · rintro ⟨dr, hmem, hle⟩
      exact ⟨(f, dr), ⟨hmem, by simpa using hle⟩, rfl⟩

theorem columnsToDrop_subset_keys (s : ShuffleFeatures)
    (ds : List (String × Value)) (f : String) (hf : f ∈ columnsToDrop s ds) :
    f ∈ ds.map Prod.fst := by
  rcases (columnsToDrop_mem s ds f).mp hf with ⟨dr, hmem, _⟩
  exact List.mem_map.mpr ⟨(f, dr), hmem, rfl⟩

theorem fitLoop_get_lt (sh : Nat → List Value → List Value) (m : Model)
    (reg : Bool) (y : List Value) (perf : Value) (xr : Nat) :
    ∀ (fs : List String) (i : Nat) (h : Heap) (acc : List (String × Value))
      (r : Nat), r < h.frames.length →
      (fitLoop sh m reg y perf xr fs i h acc).1.get r = h.get r
  | [], i, h, acc, r, hr => rfl
  | f :: fs, i, h, acc, r, hr => by
    simp only [fitLoop, Heap.alloc]
    rw [fitLoop_get_lt sh m reg y perf xr fs (i + 1) _ _ r
      (by simp [Heap.length_set]; omega)]
    rw [Heap.get_set_ne _ _ _ _ (by omega)]
    rw [Heap.get_mk_append_lt _ _ _ hr]

theorem fitLoop_snd (sh : Nat → List Value → List Value) (m : Model)
    (reg : Bool) (y : List Value) (perf : Value) :
    ∀ (fs : List String) (i : Nat) (h : Heap) (xr : Nat)
      (acc : List (String × Value)), xr < h.frames.length →
      (fitLoop sh m reg y perf xr fs i h acc).2 =
        pureLoop (loopDrift sh m reg y perf (h.get xr)) fs i acc
  | [], i, h, xr, acc, hxr => rfl
  | f :: fs, i, h, xr, acc, hxr => by
    simp only [fitLoop, pureLoop, Heap.alloc]
    rw [Heap.get_mk_append_len]
    rw [Heap.get_set_self _ _ _ (by simp)]
    rw [fitLoop_snd sh m reg y perf fs (i + 1) _ xr _
      (by simp [Heap.length_set]; omega)]
    rw [Heap.get_set_ne _ _ _ _ (by omega)]
    rw [Heap.get_mk_append_lt _ _ _ hxr]
    rfl


theorem loopDrift_eq (env : MLEnv) (s : ShuffleFeatures) (X : DataFrame)
    (y : List Value) :
    loopDrift env.shuffle (trainedModel env s X y) s.regression y
        (baselinePerf env s X y) X =
      fun j f => baselinePerf env s X y - shuffledPerf env s X y j f := by
  funext j f
  simp only [loopDrift, shuffledPerf]

theorem fit_ok_inv (env : MLEnv) (s : ShuffleFeatures) (h : Heap) (r : Nat)
    (y : List Value) (s' : ShuffleFeatures) (h' : Heap)
    (hfit : s.fit env h (.df r) y = .ok (s', h')) :
    ∃ feats, _find_all_variables (h.get r) s.features_to_shuffle = .ok feats ∧
      s' = { s with features_to_shuffle := some feats
                    features_performance_drifts_ := some (pureLoop
                      (fun i f => baselinePerf env s (h.get r) y -
                        shuffledPerf env s (h.get r) y i f) feats 0 []) } ∧
      h' = (fitLoop env.shuffle (trainedModel env s (h.get r) y) s.regression y
        (baselinePerf env s (h.get r) y) h.frames.length feats 0
        ⟨h.frames ++ [h.get r]⟩ []).1 := by
  simp only [ShuffleFeatures.fit, _is_dataframe, Heap.alloc,
    Heap.get_mk_append_len] at hfit
  cases hfind : _find_all_variables (h.get r) s.features_to_shuffle with
  | error e =>
    rw [hfind] at hfit
    exact absurd hfit (by simp)
  | ok feats =>
    rw [hfind] at hfit
    refine ⟨feats, rfl, ?_⟩
    have hsnd : (fitLoop env.shuffle (trainedModel env s (h.get r) y)
        s.regression y (baselinePerf env s (h.get r) y) h.frames.length feats 0
        ⟨h.frames ++ [h.get r]⟩ []).2 =
        pureLoop (fun i f => baselinePerf env s (h.get r) y -
          shuffledPerf env s (h.get r) y i f) feats 0 [] := by
      rw [fitLoop_snd _ _ _ _ _ _ _ _ _ _ (by simp)]
      rw [show Heap.get ⟨h.frames ++ [h.get r]⟩ h.frames.length = h.get r from
        Heap.get_mk_append_len _ _]
      rw [loopDrift_eq]
    cases hest : s.estimator with
    | some est =>
      simp only [hest] at hfit
      simp only [Except.ok.injEq, Prod.mk.injEq] at hfit
      refine ⟨?_, ?_⟩
      · rw [← hfit.1, ← hsnd]
        simp only [trainedModel, baselinePerf, hest]
      · rw [← hfit.2]
        simp only [trainedModel, baselinePerf, hest]
    | none =>
      cases hreg : s.regression with
      | true =>
        simp only [hest, hreg, if_true] at hfit
        simp only [Except.ok.injEq, Prod.mk.injEq] at hfit
        refine ⟨?_, ?_⟩
        · rw [← hfit.1, ← hsnd]
          simp only [trainedModel, baselinePerf, hest, hreg, if_true]
        · rw [← hfit.2]
          simp only [trainedModel, baselinePerf, hest, hreg, if_true]
      | false =>
        simp only [hest, hreg, Bool.false_eq_true, if_false] at hfit
        simp only [Except.ok.injEq, Prod.mk.injEq] at hfit
        refine ⟨?_, ?_⟩
        · rw [← hfit.1, ← hsnd]
          simp only [trainedModel, baselinePerf, hest, hreg, Bool.false_eq_true,
            if_false]
        · rw [← hfit.2]
          simp only [trainedModel, baselinePerf, hest, hreg, Bool.false_eq_true,
            if_false]



theorem find_all_ok_subset (X : DataFrame) (v : Option (List String))
    (feats : List String) (hfind : _find_all_variables X v = .ok feats) :
    ∀ f ∈ feats, f ∈ X.cols := by
  cases v with
  | none =>
    simp only [_find_all_variables, Except.ok.injEq] at hfind
    intro f hf
    rw [hfind]
    exact hf
  | some l =>
    simp only [_find_all_variables] at hfind
    by_cases hall : l.all (fun c => X.cols.contains c)
    · rw [if_pos hall] at hfind
      cases hfind
      intro f hf
      exact List.elem_iff.mp (List.all_eq_true.mp hall f hf)
    · rw [if_neg hall] at hfind
      exact absurd hfind (by simp)

theorem find_all_none (X : DataFrame) (feats : List String)
    (hfind : _find_all_variables X Option.none = .ok feats) : feats = X.cols := by
  simp only [_find_all_variables, Except.ok.injEq] at hfind
  exact hfind.symm

theorem find_all_some (X : DataFrame) (l feats : List String)
    (hfind : _find_all_variables X (some l) = .ok feats) : feats = l := by
  simp only [_find_all_variables] at hfind
  by_cases hall : l.all (fun c => X.cols.contains c)
  · rw [if_pos hall] at hfind
    cases hfind
    rfl
  · rw [if_neg hall] at hfind
    exact absurd hfind (by simp)

theorem fit_ok_frames (env : MLEnv) (s : ShuffleFeatures) (h : Heap)
    (xobj : PyObj) (y : List Value) (s' : ShuffleFeatures) (h' : Heap)
    (hfit : s.fit env h xobj y = .ok (s', h')) :
    ∀ q, q < h.frames.length → h'.get q = h.get q := by
  cases xobj with
  | other => simp [ShuffleFeatures.fit, _is_dataframe] at hfit
  | df r =>
    rcases fit_ok_inv env s h r y s' h' hfit with ⟨feats, _, _, hh⟩
    intro q hq
    rw [hh]
    rw [fitLoop_get_lt _ _ _ _ _ _ _ _ _ _ q (by simp; omega)]
    exact Heap.get_mk_append_lt _ _ _ hq

theorem fit_ok_exists (env : MLEnv) (s : ShuffleFeatures) (h : Heap) (r : Nat)
    (y : List Value)
    (hfeats : ∀ l, s.features_to_shuffle = some l →
      ∀ f ∈ l, f ∈ (h.get r).cols) :
    ∃ s' h', s.fit env h (.df r) y = .ok (s', h') := by
  have hfind : ∃ feats,
      _find_all_variables (h.get r) s.features_to_shuffle = .ok feats := by
    cases hv : s.features_to_shuffle with
    | none => exact ⟨(h.get r).cols, rfl⟩
    | some l =>
      refine ⟨l, ?_⟩
      have hall : l.all (fun c => (h.get r).cols.contains c) = true :=
        List.all_eq_true.mpr fun f hf =>
          DataFrame.contains_of_mem (hfeats l hv f hf)
      simp only [_find_all_variables]
      rw [if_pos hall]
  rcases hfind with ⟨feats, hfind⟩
  simp only [ShuffleFeatures.fit, _is_dataframe, Heap.alloc,
    Heap.get_mk_append_len]
  rw [hfind]
  exact ⟨_, _, rfl⟩

theorem transform_spec (s : ShuffleFeatures) (ds : List (String × Value))
    (h : Heap) (r : Nat)
    (hds : s.features_performance_drifts_ = some ds)
    (hin : ∀ p ∈ ds, p.1 ∈ (h.get r).cols) :
    ∃ Xt h', s.transform h (.df r) = .ok (Xt, h') ∧
      Xt.data = (h.get r).data.filter
        (fun p => !(columnsToDrop s ds).contains p.1) ∧
      h' = ⟨(h.frames ++ [h.get r]) ++ [Xt]⟩ := by
  have hall : (columnsToDrop s ds).all
      (fun c => (h.get r).cols.contains c) = true := by
    refine List.all_eq_true.mpr fun c hc => ?_
    rcases List.mem_map.mp (columnsToDrop_subset_keys s ds c hc) with ⟨p, hp, hpc⟩
    exact DataFrame.contains_of_mem (hpc ▸ hin p hp)
  simp only [ShuffleFeatures.transform, hds, _is_dataframe, Heap.alloc,
    Heap.get_mk_append_len, DataFrame.dropColumns, if_pos hall]
  exact ⟨_, _, rfl, rfl, rfl⟩

theorem transform_ok_frames (s : ShuffleFeatures) (h : Heap) (xobj : PyObj)
    (Xt : DataFrame) (h' : Heap)
    (ht : s.transform h xobj = .ok (Xt, h')) :
    ∀ q, q < h.frames.length → h'.get q = h.get q := by
  cases hds : s.features_performance_drifts_ with
  | none => simp [ShuffleFeatures.transform, hds] at ht
  | some ds =>
    cases xobj with
    | other => simp [ShuffleFeatures.transform, hds, _is_dataframe] at ht
    | df r =>
      simp only [ShuffleFeatures.transform, hds, _is_dataframe, Heap.alloc,
        Heap.get_mk_append_len] at ht
      cases hdrop : (h.get r).dropColumns (columnsToDrop s ds) with
      | error e =>
        rw [hdrop] at ht
        exact absurd ht (by simp)
      | ok Xd =>
        rw [hdrop] at ht
        simp only [Except.ok.injEq, Prod.mk.injEq] at ht
        intro q hq
        rw [← ht.2]
        rw [Heap.get_mk_append_lt _ _ _ (by simp; omega)]
        exact Heap.get_mk_append_lt _ _ _ hq


theorem map_fst_filter_key {β : Type} (g : String → Bool) :
    ∀ l : List (String × β),
      (l.filter (fun p => g p.1)).map Prod.fst = (l.map Prod.fst).filter g
  | [] => rfl
  | p :: t => by
    by_cases hp : g p.1 <;>
      simp [List.filter_cons, hp, map_fst_filter_key g t]

/-! The claim theorems. -/

/-- C3: construction fails with a configuration error if and only if the
`regression` argument or the `cv` argument is not a boolean; in particular
construction with `cv` left at its python default `3` always fails, so every
successful construction received explicit booleans for both. -/
theorem claim_c3 (regression cv : PyVal) (threshold : Value)
    (fs : Option (List String))
    (est : Option (DataFrame → List Value → Model)) (sc : String) :
    ((ShuffleFeatures.init regression cv threshold fs est sc).isOk = true ↔
      (regression.isBool = true ∧ cv.isBool = true)) ∧
    (ShuffleFeatures.initDefaultCv regression threshold fs est sc).isOk
      = false := by
  cases cv <;> cases regression <;>
    simp [ShuffleFeatures.init, ShuffleFeatures.initDefaultCv, PyVal.isBool,
      Except.isOk, Except.toBool]

/-- C6: on any selector produced by the constructor (on which `fit` has not
completed), `transform` fails with the unfitted-state error, for every heap
and every input object. -/
theorem claim_c6 (regression cv : PyVal) (threshold : Value)
    (fs : Option (List String))
    (est : Option (DataFrame → List Value → Model)) (sc : String)
    (s : ShuffleFeatures)
    (hinit : ShuffleFeatures.init regression cv threshold fs est sc = .ok s)
    (h : Heap) (x : PyObj) :
    s.transform h x =
      .error ("This ShuffleFeatures instance is not fitted yet") := by
  cases cv with
  | bool cb =>
    cases regression with
    | bool rb =>
      simp only [ShuffleFeatures.init, Except.ok.injEq] at hinit
      rw [← hinit]
      rfl
    | int n => simp [ShuffleFeatures.init] at hinit
    | float q => simp [ShuffleFeatures.init] at hinit
    | str t => simp [ShuffleFeatures.init] at hinit
    | none => simp [ShuffleFeatures.init] at hinit
  | int n => simp [ShuffleFeatures.init] at hinit
  | float q => simp [ShuffleFeatures.init] at hinit
  | str t => simp [ShuffleFeatures.init] at hinit
  | none => simp [ShuffleFeatures.init] at hinit

/-- C8: `fit` is deterministic once the environment (in particular the
random permutation stream, i.e. the seed) is fixed: two fit calls on
identical configuration, heap, input and target record identical
`features_performance_drifts_`. -/
theorem claim_c8 (env₁ env₂ : MLEnv) (s₁ s₂ : ShuffleFeatures) (h₁ h₂ : Heap)
    (x₁ x₂ : PyObj) (y₁ y₂ : List Value) (henv : env₁ = env₂) (hs : s₁ = s₂)
    (hh : h₁ = h₂) (hx : x₁ = x₂) (hy : y₁ = y₂) :
    (s₁.fit env₁ h₁ x₁ y₁).map (fun p => p.1.features_performance_drifts_) =
      (s₂.fit env₂ h₂ x₂ y₂).map (fun p => p.1.features_performance_drifts_)
    := by
  subst henv hs hh hx hy
  rfl

/-- C1: every drift recorded by `fit` is `baseline - shuffled` for some draw
of the permutation, where the baseline is the constant `1` when a caller
estimator is supplied, the MSE of the default regressor's predictions in
regression mode, and the AUC of the default classifier's positive-class
probabilities otherwise; the shuffled performance uses the mode's metric. -/
theorem claim_c1 (env : MLEnv) (s : ShuffleFeatures) (h : Heap) (r : Nat)
    (y : List Value) (s' : ShuffleFeatures) (h' : Heap)
    (ds : List (String × Value))
    (hfit : s.fit env h (.df r) y = .ok (s', h'))
    (hds : s'.features_performance_drifts_ = some ds) :
    (∀ p ∈ ds, ∃ j, p.2 = baselinePerf env s (h.get r) y -
        shuffledPerf env s (h.get r) y j p.1) ∧
    (∀ est, s.estimator = some est → baselinePerf env s (h.get r) y = 1) ∧
    (s.estimator = Option.none → s.regression = true →
      baselinePerf env s (h.get r) y = mean_squared_error y
        ((env.trainRegressor (h.get r) y).predict (h.get r))) ∧
    (s.estimator = Option.none → s.regression = false →
      baselinePerf env s (h.get r) y = roc_auc_score y
        ((env.trainClassifier (h.get r) y).predictProba (h.get r))) ∧
    (s.regression = true → ∀ j f, shuffledPerf env s (h.get r) y j f =
      mean_squared_error y ((trainedModel env s (h.get r) y).predict
        (shuffledFrame (h.get r) f (env.shuffle j)))) ∧
    (s.regression = false → ∀ j f, shuffledPerf env s (h.get r) y j f =
      roc_auc_score y ((trainedModel env s (h.get r) y).predictProba
        (shuffledFrame (h.get r) f (env.shuffle j)))) := by
  rcases fit_ok_inv env s h r y s' h' hfit with ⟨feats, hfind, hs', hh'⟩
  subst hs'
  simp only [Option.some.injEq] at hds
  refine ⟨?_, ?_, ?_, ?_, ?_, ?_⟩
  · intro p hp
    rw [← hds] at hp
    rcases pureLoop_mem_pairs _ feats 0 [] p hp with hacc | hj
    · exact absurd hacc (by simp)
    · exact hj
  · intro est hest
    simp [baselinePerf, hest]
  · intro hest hreg
    simp [baselinePerf, trainedModel, hest, hreg]
  · intro hest hreg
    simp [baselinePerf, trainedModel, hest, hreg]
  · intro hreg j f
    simp [shuffledPerf, hreg]
  · intro hreg j f
    simp [shuffledPerf, hreg]

/-- C5: after a successful `fit` the key set of the recorded drift mapping
equals exactly the resolved feature list, which is all the input columns
when no features were specified and the given list otherwise. -/
theorem claim_c5 (env : MLEnv) (s : ShuffleFeatures) (h : Heap) (r : Nat)
    (y : List Value) (s' : ShuffleFeatures) (h' : Heap)
    (hfit : s.fit env h (.df r) y = .ok (s', h')) :
    ∃ feats ds, s'.features_to_shuffle = some feats ∧
      s'.features_performance_drifts_ = some ds ∧
      (∀ f, f ∈ ds.map Prod.fst ↔ f ∈ feats) ∧
      (s.features_to_shuffle = Option.none → feats = (h.get r).cols) ∧
      (∀ l, s.features_to_shuffle = some l → feats = l) := by
  rcases fit_ok_inv env s h r y s' h' hfit with ⟨feats, hfind, hs', hh'⟩
  subst hs'
  refine ⟨feats, _, rfl, rfl, ?_, ?_, ?_⟩
  · intro f
    rw [pureLoop_mem_keys]
    simp
  · intro hnone
    rw [hnone] at hfind
    exact find_all_none _ _ hfind
  · intro l hl
    rw [hl] at hfind
    exact find_all_some _ _ _ hfind

/-- C4: the frame on which a feature's shuffled performance is recomputed
(`shuffledFrame`, used verbatim by the fit loop) has the same columns as the
input, its shuffled column is a permutation of that column's own original
values, and every other column is unchanged. -/
theorem claim_c4 (X : DataFrame) (f : String) (perm : List Value → List Value)
    (hf : f ∈ X.cols) (hperm : ∀ l, (perm l).Perm l) :
    (shuffledFrame X f perm).cols = X.cols ∧
    ((shuffledFrame X f perm).getCol f).Perm (X.getCol f) ∧
    (∀ g, g ≠ f → (shuffledFrame X f perm).getCol g = X.getCol g) := by
  refine ⟨DataFrame.cols_setCol X f _ hf, ?_,
    fun g hg => DataFrame.getCol_setCol_ne X f g _ hg⟩
  unfold shuffledFrame
  rw [DataFrame.getCol_setCol_self X f _ hf]
  exact hperm _

/-- C2: on a fitted selector, `transform` of a dataframe containing the
fitted features succeeds and drops exactly the features whose drift is
`>= threshold` in regression mode and `<= threshold` in classification mode
(both inclusive), keeping every other column in its original order. -/
theorem claim_c2 (s : ShuffleFeatures) (ds : List (String × Value)) (h : Heap)
    (r : Nat) (hds : s.features_performance_drifts_ = some ds)
    (hin : ∀ p ∈ ds, p.1 ∈ (h.get r).cols) :
    ∃ Xt h', s.transform h (.df r) = .ok (Xt, h') ∧
      Xt.data = (h.get r).data.filter
        (fun p => !(columnsToDrop s ds).contains p.1) ∧
      Xt.cols = (h.get r).cols.filter
        (fun c => !(columnsToDrop s ds).contains c) ∧
      (∀ f, f ∈ columnsToDrop s ds ↔ ∃ dr, (f, dr) ∈ ds ∧
        (if s.regression then s.threshold ≤ dr else dr ≤ s.threshold)) := by
  rcases transform_spec s ds h r hds hin with ⟨Xt, h', ht, hdata, hh⟩
  refine ⟨Xt, h', ht, hdata, ?_, fun f => columnsToDrop_mem s ds f⟩
  show Xt.data.map Prod.fst = _
  rw [hdata, map_fst_filter_key (fun c => !(columnsToDrop s ds).contains c)
    ((h.get r).data)]
  rfl

/-- C10: neither `fit` nor `transform` writes through any pre-existing frame
reference: the caller's dataframe is unchanged after either call. -/
theorem claim_c10 (env : MLEnv) (s : ShuffleFeatures) (h : Heap)
    (xobj : PyObj) (y : List Value) (q : Nat) (hq : q < h.frames.length) :
    (∀ s' h', s.fit env h xobj y = .ok (s', h') →
      Heap.get h' q = Heap.get h q) ∧
    (∀ Xt h', s.transform h xobj = .ok (Xt, h') →
      Heap.get h' q = Heap.get h q) :=
  ⟨fun s' h' hfit => fit_ok_frames env s h xobj y s' h' hfit q hq,
   fun Xt h' ht => transform_ok_frames s h xobj Xt h' ht q hq⟩

/-- C7: when the input is a dataframe and every requested feature occurs in
its columns, `fit` succeeds and `transform` on the same dataframe then also
succeeds: no other failure point is reachable. -/
theorem claim_c7 (env : MLEnv) (s : ShuffleFeatures) (h : Heap) (r : Nat)
    (y : List Value) (hr : r < h.frames.length)
    (hfeats : ∀ l, s.features_to_shuffle = some l →
      ∀ f ∈ l, f ∈ (h.get r).cols) :
    ∃ s' h' Xt h'', s.fit env h (.df r) y = .ok (s', h') ∧
      s'.transform h' (.df r) = .ok (Xt, h'') := by
  rcases fit_ok_exists env s h r y hfeats with ⟨s', h', hfit⟩
  rcases fit_ok_inv env s h r y s' h' hfit with ⟨feats, hfind, hs', hh'⟩
  have hget : h'.get r = h.get r :=
    fit_ok_frames env s h (.df r) y s' h' hfit r hr
  have hds : s'.features_performance_drifts_ = some (pureLoop
      (fun i f => baselinePerf env s (h.get r) y -
        shuffledPerf env s (h.get r) y i f) feats 0 []) := by
    rw [hs']
  have hin : ∀ p ∈ pureLoop (fun i f => baselinePerf env s (h.get r) y -
      shuffledPerf env s (h.get r) y i f) feats 0 [],
      p.1 ∈ (h'.get r).cols := by
    intro p hp
    have hkey : p.1 ∈ feats := by
      have hm := (pureLoop_mem_keys _ feats 0 [] p.1).mp
        (List.mem_map.mpr ⟨p, hp, rfl⟩)
      simpa using hm
    rw [hget]
    exact find_all_ok_subset _ _ _ hfind p.1 hkey
  rcases transform_spec s' _ h' r hds hin with ⟨Xt, h'', ht, _, _⟩
  exact ⟨s', h', Xt, h'', hfit, ht⟩

/-- C9: the `scoring` string and the (validated boolean) `cv` value have no
effect: two selectors constructed identically except for them record the
same drifts and heap under `fit` and produce the same `transform` output. -/
theorem claim_c9 (regression cv₁ cv₂ : PyVal) (threshold : Value)
    (fs : Option (List String))
    (est : Option (DataFrame → List Value → Model)) (sc₁ sc₂ : String)
    (s₁ s₂ : ShuffleFeatures)
    (hinit₁ : ShuffleFeatures.init regression cv₁ threshold fs est sc₁
      = .ok s₁)
    (hinit₂ : ShuffleFeatures.init regression cv₂ threshold fs est sc₂
      = .ok s₂)
    (env : MLEnv) (h : Heap) (x : PyObj) (y : List Value) (x₂ : PyObj) :
    (s₁.fit env h x y).map
        (fun p => (p.1.features_performance_drifts_, p.2)) =
      (s₂.fit env h x y).map
        (fun p => (p.1.features_performance_drifts_, p.2)) ∧
    ((s₁.fit env h x y).bind (fun p => p.1.transform p.2 x₂)) =
      ((s₂.fit env h x y).bind (fun p => p.1.transform p.2 x₂)) := by
  cases cv₁ with
  | int n => simp [ShuffleFeatures.init] at hinit₁
  | float q => simp [ShuffleFeatures.init] at hinit₁
  | str t => simp [ShuffleFeatures.init] at hinit₁
  | none => simp [ShuffleFeatures.init] at hinit₁
  | bool cb₁ =>
  cases cv₂ with
  | int n => simp [ShuffleFeatures.init] at hinit₂
  | float q => simp [ShuffleFeatures.init] at hinit₂
  | str t => simp [ShuffleFeatures.init] at hinit₂
  | none => simp [ShuffleFeatures.init] at hinit₂
  | bool cb₂ =>
  cases regression with
  | int n => simp [ShuffleFeatures.init] at hinit₁
  | float q => simp [ShuffleFeatures.init] at hinit₁
  | str t => simp [ShuffleFeatures.init] at hinit₁
  | none => simp [ShuffleFeatures.init] at hinit₁
  | bool rb =>
  simp only [ShuffleFeatures.init, Except.ok.injEq] at hinit₁ hinit₂
  subst hinit₁
  subst hinit₂
  constructor
  · cases x with
    | other => rfl
    | df r =>
      simp only [ShuffleFeatures.fit, _is_dataframe, Heap.alloc,
        Heap.get_mk_append_len]
      cases hfind : _find_all_variables (h.get r) (_define_variables fs) with
      | error e => simp [hfind]
      | ok feats => simp [hfind, Except.map]
  · cases x with
    | other => rfl
    | df r =>
      simp only [ShuffleFeatures.fit, _is_dataframe, Heap.alloc,
        Heap.get_mk_append_len]
      cases hfind : _find_all_variables (h.get r) (_define_variables fs) with
      | error e => simp [hfind]
      | ok feats =>
        simp only [hfind, Except.bind]
        cases x₂ with
        | other => rfl
        | df r₂ => rfl


/-! Witnesses: each applies its claim theorem at a concrete input. -/

/-- Witness for C1 at the concrete fitted witness selector, instantiated at
the first recorded drift entry. -/
theorem claim_c1_witness :
    ∃ j, wP.2 = baselinePerf wEnv wSel (Heap.get wHeap 0) wY -
      shuffledPerf wEnv wSel (Heap.get wHeap 0) wY j wP.1 :=
  (claim_c1 wEnv wSel wHeap 0 wY wFitPair.1 wFitPair.2 wDsX rfl rfl).1 wP
    (List.mem_of_mem_head? (by rfl))

/-- Witness for C2 at the concrete fitted witness selector. -/
theorem claim_c2_witness :
    ∃ Xt h', wSelD.transform wHeap (.df 0) = .ok (Xt, h') ∧
      Xt.data = (Heap.get wHeap 0).data.filter
        (fun p => !(columnsToDrop wSelD wDs).contains p.1) ∧
      Xt.cols = (Heap.get wHeap 0).cols.filter
        (fun c => !(columnsToDrop wSelD wDs).contains c) ∧
      (∀ f, f ∈ columnsToDrop wSelD wDs ↔ ∃ dr, (f, dr) ∈ wDs ∧
        (if wSelD.regression then wSelD.threshold ≤ dr
         else dr ≤ wSelD.threshold)) :=
  claim_c2 wSelD wDs wHeap 0 rfl (by decide)

/-- Witness for C4 on the concrete frame with the reversing permutation. -/
theorem claim_c4_witness :
    (shuffledFrame wDF wA List.reverse).cols = wDF.cols ∧
    ((shuffledFrame wDF wA List.reverse).getCol wA).Perm (wDF.getCol wA) ∧
    (shuffledFrame wDF wA List.reverse).getCol wB = wDF.getCol wB := by
  have h := claim_c4 wDF wA List.reverse (by decide)
    (fun l => List.reverse_perm l)
  exact ⟨h.1, h.2.1, h.2.2 wB (by decide)⟩

/-- Witness for C5 at the concrete fitted witness selector. -/
theorem claim_c5_witness :
    ∃ feats ds, wFitPair.1.features_to_shuffle = some feats ∧
      wFitPair.1.features_performance_drifts_ = some ds ∧
      (∀ f, f ∈ ds.map Prod.fst ↔ f ∈ feats) ∧
      (wSel.features_to_shuffle = Option.none → feats = (Heap.get wHeap 0).cols) ∧
      (∀ l, wSel.features_to_shuffle = some l → feats = l) :=
  claim_c5 wEnv wSel wHeap 0 wY wFitPair.1 wFitPair.2 rfl

/-- Witness for C6 on a concretely constructed selector. -/
theorem claim_c6_witness :
    ShuffleFeatures.transform wSel0 wHeap (.df 0) =
      .error ("This ShuffleFeatures instance is not fitted yet") :=
  claim_c6 (.bool true) (.bool false) 0 Option.none Option.none ("x") wSel0
    rfl wHeap (.df 0)

/-- Witness for C7 on the concrete frame and selector. -/
theorem claim_c7_witness :
    ∃ s' h' Xt h'', ShuffleFeatures.fit wEnv wSel wHeap (.df 0) wY
        = .ok (s', h') ∧
      s'.transform h' (.df 0) = .ok (Xt, h'') :=
  claim_c7 wEnv wSel wHeap 0 wY (by decide) (fun l hl => nomatch hl)

/-- Witness for C8 at concrete twice-identical inputs. -/
theorem claim_c8_witness :
    (wSel.fit wEnv wHeap (.df 0) wY).map
        (fun p => p.1.features_performance_drifts_) =
      (wSel.fit wEnv wHeap (.df 0) wY).map
        (fun p => p.1.features_performance_drifts_) :=
  claim_c8 wEnv wEnv wSel wSel wHeap wHeap (.df 0) (.df 0) wY wY rfl rfl rfl
    rfl rfl

/-- Witness for C9: two selectors differing only in scoring and cv. -/
theorem claim_c9_witness :
    ((wSel.fit wEnv wHeap (.df 0) wY).map
        (fun p => (p.1.features_performance_drifts_, p.2)) =
      (wSel9.fit wEnv wHeap (.df 0) wY).map
        (fun p => (p.1.features_performance_drifts_, p.2))) ∧
    ((wSel.fit wEnv wHeap (.df 0) wY).bind
        (fun p => p.1.transform p.2 (.df 0))) =
      ((wSel9.fit wEnv wHeap (.df 0) wY).bind
        (fun p => p.1.transform p.2 (.df 0))) :=
  claim_c9 (.bool true) (.bool false) (.bool true) 0 Option.none Option.none
    ("neg_mean_squared_error") ("r2") wSel wSel9 rfl rfl wEnv wHeap (.df 0)
    wY (.df 0)

/-- Witness for C10: the caller's frame is untouched by a concrete fit and a
concrete transform. -/
theorem claim_c10_witness :
    Heap.get wFitPair.2 0 = Heap.get wHeap 0 ∧
    Heap.get wTrPairD.2 0 = Heap.get wHeap 0 :=
  ⟨(claim_c10 wEnv wSel wHeap (.df 0) wY 0 (by decide)).1 wFitPair.1
      wFitPair.2 rfl,
   (claim_c10 wEnv wSelD wHeap (.df 0) wY 0 (by decide)).2 wTrPairD.1
      wTrPairD.2 rfl⟩

end FeatureEngine
